import Mathlib

/-!
Verification of the Borealis MCP workspace-backed job lifecycle manager.

This file gives a shallow embedding, in Lean, of the core Python modules
`borealis_mcp/core/workspace.py`, `borealis_mcp/core/pbs_tools.py`,
`borealis_mcp/core/workspace_tools.py`, `borealis_mcp/core/mock_pbs_client.py`,
`borealis_mcp/utils/validation.py` and `borealis_mcp/utils/formatting.py`,
together with theorems settling the behavioural claims about them.

Modelling conventions:
* Python dictionaries become association lists (`List (String × _)`) with
  Python insertion-order semantics (`dictInsert`, `dictUpdate`).
* The filesystem under the workspace base path becomes a `Store`: the list of
  first-level directory entries, each carrying its full path and the parsed
  metadata record if the metadata file is present and well formed (`none`
  models a missing or corrupt metadata file, which the Python code skips).
* `datetime.now()` and `uuid.uuid4()` become explicit parameters
  (`Timestamp`, generated-id strings), and `datetime.fromisoformat` becomes
  an explicit parsing-oracle parameter, so that the store logic is verified
  for every possible clock/id/parser behaviour.
* The mock PBS client (`MockPBSClient`) is embedded as `MockPBS`; tool
  functions take the client that `get_pbs_client` would yield and report,
  alongside the response dictionary, the resulting workspace store and
  `Option MockPBS`: `none` means the tool returned before any scheduler
  client was created, `some c` is the client state at context exit.
-/

namespace Borealis

/-- JSON-style metadata values stored in workspace metadata maps. -/
inductive JVal where
  | jnum (v : Int)
  | jstr (v : String)
deriving DecidableEq, Repr

/-- Python truthiness of a metadata value (`0` and `""` are falsy). -/
def JVal.truthy : JVal → Bool
  | .jnum v => v ≠ 0
  | .jstr v => v ≠ ""

/-- Python `str()` of a metadata value. -/
def JVal.pyStr : JVal → String
  | .jnum v => toString v
  | .jstr v => v

/-- Python `d.get(k)` / `d[k]` on an association list: first binding wins. -/
def dictGet {α : Type} (d : List (String × α)) (k : String) : Option α :=
  d.findSome? (fun p => if p.1 = k then some p.2 else none)

/-- Python `d[k] = v`: replace the binding in place if the key exists,
otherwise append the new binding (insertion order preserved). -/
def dictInsert {α : Type} (d : List (String × α)) (k : String) (v : α) :
    List (String × α) :=
  if d.any (fun p => p.1 = k) then
    d.map (fun p => if p.1 = k then (k, v) else p)
  else d ++ [(k, v)]

/-- Python `d.update(patch)`: key-by-key insertion of the patch. -/
def dictUpdate {α : Type} (d patch : List (String × α)) : List (String × α) :=
  patch.foldl (fun acc p => dictInsert acc p.1 p.2) d

/-- Python truthiness of an optional string argument
(`None` and `""` are falsy). -/
def optTruthy : Option String → Bool
  | none => false
  | some s => s ≠ ""

/-- `WorkspaceInfo` from `core/workspace.py`: the metadata record persisted in
each workspace directory. -/
structure WorkspaceInfo where
  workspace_id : String
  path : String
  job_name : String
  created_at : String
  system : String
  status : String := "active"
  job_id : Option String := none
  script_path : Option String := none
  metadata : List (String × JVal) := []
deriving DecidableEq, Repr

/-- The contents of the workspace base directory: one entry per first-level
child, keyed by its full path; `none` models a child whose metadata file is
missing or unreadable (skipped by every scan in `workspace.py`). -/
structure Store where
  entries : List (String × Option WorkspaceInfo)
deriving DecidableEq, Repr

/-- Well-formedness of the on-disk store: each parsed record points back at
its own directory, directory paths are distinct, and workspace ids are
distinct (the uuid-uniqueness assumption of `_generate_workspace_id`). -/
def Store.wf (s : Store) : Prop :=
  (∀ e ∈ s.entries, Option.all (fun i => i.path == e.1) e.2 = true) ∧
  (s.entries.map Prod.fst).Nodup ∧
  ((s.entries.filterMap Prod.snd).map WorkspaceInfo.workspace_id).Nodup

/-- The `WorkspaceManager` construction parameters: base path and system. -/
structure Manager where
  base : String
  system_name : String
deriving DecidableEq, Repr

/-- A `datetime` value at the resolution the code observes. -/
structure Timestamp where
  year : Nat
  month : Nat
  day : Nat
  hour : Nat
  minute : Nat
  second : Nat
  micro : Nat := 0
deriving DecidableEq, Repr

/-- Zero-left-pad a number to a given width, as `strftime`/`isoformat` do. -/
def padNum (width n : Nat) : String :=
  let s := toString n
  if s.length < width then
    String.mk (List.replicate (width - s.length) '0') ++ s
  else s

/-- `timestamp.strftime("%Y%m%d_%H%M%S")`: second resolution, microseconds
discarded. -/
def Timestamp.strftimeCompact (t : Timestamp) : String :=
  padNum 4 t.year ++ padNum 2 t.month ++ padNum 2 t.day ++ "_" ++
    padNum 2 t.hour ++ padNum 2 t.minute ++ padNum 2 t.second

/-- `timestamp.isoformat()`: microseconds kept when nonzero. -/
def Timestamp.isoformat (t : Timestamp) : String :=
  padNum 4 t.year ++ "-" ++ padNum 2 t.month ++ "-" ++ padNum 2 t.day ++ "T" ++
    padNum 2 t.hour ++ ":" ++ padNum 2 t.minute ++ ":" ++ padNum 2 t.second ++
    (if t.micro = 0 then "" else "." ++ padNum 6 t.micro)

/-- `WorkspaceManager._get_workspace_dirname`: sanitized job name plus the
second-resolution timestamp; no other disambiguating component. -/
def getWorkspaceDirname (job_name : String) (t : Timestamp) : String :=
  let safe_name := String.mk
    (job_name.data.map (fun c => if c.isAlphanum ∨ c = '-' ∨ c = '_' then c else '_'))
  safe_name ++ "_" ++ t.strftimeCompact

/-- Message standing for the `FileExistsError` that
`Path.mkdir(exist_ok=False)` raises on a directory-name collision. -/
def fileExistsMsg (path : String) : String :=
  "FileExistsError: " ++ path

/-- `WorkspaceManager.create_workspace`: derive the directory name, fail
fatally if the directory already exists, otherwise create it and write the
initial metadata record with status `active`.  The generated workspace id
and the current time are explicit parameters. -/
def create_workspace (m : Manager) (s : Store) (wid : String) (ts : Timestamp)
    (job_name : String) (metadata : List (String × JVal)) :
    Except String (Store × WorkspaceInfo) :=
  let dirname := getWorkspaceDirname job_name ts
  let path := m.base ++ "/" ++ dirname
  if s.entries.any (fun e => e.1 = path) then
    .error (fileExistsMsg path)
  else
    let info : WorkspaceInfo :=
      { workspace_id := wid
        path := path
        job_name := job_name
        created_at := ts.isoformat
        system := m.system_name
        status := "active"
        job_id := none
        script_path := none
        metadata := metadata }
    .ok (⟨s.entries ++ [(path, some info)]⟩, info)

/-- The per-entry test of the `get_workspace` scan: the parsed record when
the entry is loadable and its id matches. -/
def wsProbe (workspace_id : String) (e : String × Option WorkspaceInfo) :
    Option WorkspaceInfo :=
  match e.2 with
  | some info => if info.workspace_id = workspace_id then some info else none
  | none => none

/-- `WorkspaceManager.get_workspace`: scan the base directory in order and
return the first loadable record whose id matches. -/
def get_workspace (s : Store) (workspace_id : String) : Option WorkspaceInfo :=
  s.entries.findSome? (wsProbe workspace_id)

/-- `WorkspaceManager.list_workspaces`: collect loadable records, filter by
status when one is given, sort by creation time newest first, truncate. -/
def list_workspaces (s : Store) (status : Option String) (limit : Nat) :
    List WorkspaceInfo :=
  let infos := s.entries.filterMap Prod.snd
  let infos := match status with
    | none => infos
    | some st => infos.filter (fun i => i.status = st)
  (infos.mergeSort (fun a b => decide (b.created_at ≤ a.created_at))).take limit

/-- `WorkspaceManager.update_workspace`: load the current record, apply only
the truthy arguments (metadata is merged key-by-key), rewrite the metadata
file of the directory at the record's recorded path. -/
def update_workspace (s : Store) (workspace_id : String)
    (status job_id script_path : Option String)
    (metadata : Option (List (String × JVal))) : Store × Option WorkspaceInfo :=
  match get_workspace s workspace_id with
  | none => (s, none)
  | some info =>
    let info := if optTruthy status then
        { info with status := status.getD "" } else info
    let info := if optTruthy job_id then
        { info with job_id := some (job_id.getD "") } else info
    let info := if optTruthy script_path then
        { info with script_path := some (script_path.getD "") } else info
    let info := match metadata with
      | some patch =>
        if patch ≠ [] then { info with metadata := dictUpdate info.metadata patch }
        else info
      | none => info
    (⟨s.entries.map (fun e => if e.1 = info.path then (e.1, some info) else e)⟩,
      some info)

/-- `WorkspaceManager.cleanup_workspace`: refuse when the status is `active`
or `submitted` and force is off; otherwise remove the directory tree at the
record's recorded path, reporting whether anything was removed. -/
def cleanup_workspace (s : Store) (workspace_id : String) (force : Bool) :
    Store × Bool :=
  match get_workspace s workspace_id with
  | none => (s, false)
  | some info =>
    if ¬force ∧ (info.status = "active" ∨ info.status = "submitted") then
      (s, false)
    else if s.entries.any (fun e => e.1 = info.path) then
      (⟨s.entries.filter (fun e => e.1 ≠ info.path)⟩, true)
    else (s, false)

/-- The selection test of `cleanup_old_workspaces`: parseable creation time
before the cutoff and terminal status. -/
def oldSelect (parseTs : String → Option Int) (cutoff : Int)
    (i : WorkspaceInfo) : Bool :=
  match parseTs i.created_at with
  | none => false
  | some created =>
    decide (created < cutoff) && (i.status == "completed" || i.status == "failed")

/-- One iteration of the `cleanup_old_workspaces` loop body. -/
def oldStep (parseTs : String → Option Int) (cutoff : Int)
    (acc : Store × Nat) (info : WorkspaceInfo) : Store × Nat :=
  match parseTs info.created_at with
  | none => acc
  | some created =>
    if created < cutoff ∧ (info.status = "completed" ∨ info.status = "failed") then
      let r := cleanup_workspace acc.1 info.workspace_id true
      (r.1, if r.2 then acc.2 + 1 else acc.2)
    else acc

/-- `WorkspaceManager.cleanup_old_workspaces`: no-op for non-positive `days`;
otherwise iterate over `list_workspaces(limit=1000)` force-deleting records
with terminal status created before `now - days*86400`, counting removals and
skipping records whose creation timestamp does not parse.  The ambient clock
and the ISO-timestamp parser are explicit parameters. -/
def cleanup_old_workspaces (parseTs : String → Option Int) (now : Int)
    (s : Store) (days : Int) : Store × Nat :=
  if days ≤ 0 then (s, 0)
  else
    let cutoff := now - days * 86400
    (list_workspaces s none 1000).foldl (oldStep parseTs cutoff) (s, 0)

/-! ### Validation patterns (`config/constants.py`, `utils/validation.py`)

Python `re.match` semantics for the anchored patterns used here: the match is
anchored at the start, `$` also matches just before one final newline, `.`
matches any character except a newline, and `\d`/`\S` are digit /
non-whitespace character classes. -/

/-- Drop one final newline, modelling what `$` tolerates in Python `re`. -/
def stripTrailingNewline (cs : List Char) : List Char :=
  if cs.getLast? = some '\n' then cs.dropLast else cs

/-- Matcher for patterns of the shape `^\d+\.T+$` where `T` is a
one-character class given by `tailPred`. -/
def matchNumDotTail (tailPred : Char → Bool) (s : String) : Bool :=
  let core := stripTrailingNewline s.data
  let ds := core.takeWhile Char.isDigit
  let rest := core.drop ds.length
  !ds.isEmpty &&
    (match rest with
     | '.' :: tail => !tail.isEmpty && tail.all tailPred
     | _ => false)

/-- `JOB_ID_PATTERN` from `config/constants.py`, which is `^\d+\..+$`: the
part after the dot may contain any characters except newlines, whitespace
included. -/
def jobIdPatternMatch (s : String) : Bool :=
  matchNumDotTail (fun c => c != '\n') s

/-- Modelled from the spec: the job-id format the spec states, `^\d+\.\S+$`,
whose server part excludes all whitespace.  Used only to compare the spec
wording with `jobIdPatternMatch`, the pattern the code actually compiles. -/
def jobIdSpecMatch (s : String) : Bool :=
  matchNumDotTail (fun c => !c.isWhitespace) s

/-- Two mandatory digits, used by the walltime pattern. -/
def twoDigits : List Char → Option (List Char)
  | a :: b :: rest => if a.isDigit ∧ b.isDigit then some rest else none
  | _ => none

/-- `WALLTIME_PATTERN = ^\d{1,3}:\d{2}:\d{2}$`. -/
def walltimePatternMatch (s : String) : Bool :=
  let core := stripTrailingNewline s.data
  let ds := core.takeWhile Char.isDigit
  let rest := core.drop ds.length
  (decide (1 ≤ ds.length) && decide (ds.length ≤ 3)) &&
    (match rest with
     | ':' :: r1 =>
       (match twoDigits r1 with
        | some (':' :: r2) =>
          (match twoDigits r2 with
           | some [] => true
           | _ => false)
        | _ => false)
     | _ => false)

/-- The `[a-zA-Z0-9_]` character class. -/
def isWordChar (c : Char) : Bool := c.isAlphanum || c == '_'

/-- Split a character list on colons (used to decide the filesystems
pattern). -/
def splitOnColon : List Char → List (List Char)
  | [] => [[]]
  | c :: rest =>
    let r := splitOnColon rest
    if c = ':' then [] :: r
    else
      match r with
      | h :: t => (c :: h) :: t
      | [] => [[c]]

/-- `FILESYSTEMS_PATTERN = ^[a-zA-Z0-9_]+(:[a-zA-Z0-9_]+)*$`. -/
def filesystemsPatternMatch (s : String) : Bool :=
  let core := stripTrailingNewline s.data
  (splitOnColon core).all (fun p => !p.isEmpty && p.all isWordChar)

/-- The message `validate_job_id` raises for a malformed id. -/
def invalidJobIdMsg (job_id : String) : String :=
  "Invalid job ID format: \x27" ++ job_id ++
    "\x27. Expected format: <number>.<server> (e.g., 12345.aurora-pbs-01)"

/-- `validate_job_id` from `utils/validation.py`, with the raised
`ValidationError` embedded as an `Except` error. -/
def validate_job_id (job_id : String) : Except String Unit :=
  if jobIdPatternMatch job_id then .ok () else .error (invalidJobIdMsg job_id)

/-- The message `validate_walltime` raises. -/
def invalidWalltimeMsg (walltime : String) : String :=
  "Invalid walltime format: \x27" ++ walltime ++
    "\x27. Expected HH:MM:SS (e.g., 01:30:00)"

/-- `validate_walltime` from `utils/validation.py`. -/
def validate_walltime (walltime : String) : Except String Unit :=
  if walltimePatternMatch walltime then .ok ()
  else .error (invalidWalltimeMsg walltime)

/-- The message `validate_filesystems` raises. -/
def invalidFilesystemsMsg (filesystems : String) : String :=
  "Invalid filesystems format: \x27" ++ filesystems ++
    "\x27. Expected format like \x27flare:home\x27 (colon-separated names)"

/-- `validate_filesystems` from `utils/validation.py`. -/
def validate_filesystems (filesystems : String) : Except String Unit :=
  if filesystemsPatternMatch filesystems then .ok ()
  else .error (invalidFilesystemsMsg filesystems)

/-- The message `validate_account` raises when no account is supplied. -/
def accountRequiredMsg : String :=
  "PBS account is required. Set PBS_ACCOUNT environment variable " ++
    "or pass account parameter explicitly."

/-- Python `str.strip()`: drop leading and trailing whitespace. -/
def pyStrip (s : String) : String :=
  String.mk
    (((s.data.dropWhile Char.isWhitespace).reverse.dropWhile
      Char.isWhitespace).reverse)

/-- `validate_account` from `utils/validation.py`: reject empty or
whitespace-only accounts, return the stripped account otherwise. -/
def validate_account (account : String) : Except String String :=
  if account = "" ∨ pyStrip account = "" then .error accountRequiredMsg
  else .ok (pyStrip account)

/-! ### The simulated scheduler backend (`core/mock_pbs_client.py`) -/

/-- `MockJobInfo`: a job record of the simulated backend. -/
structure MockJobInfo where
  name : String
  attrs : List (String × String)
deriving DecidableEq, Repr

/-- `MockPBSClient`: in-memory job map plus a monotonically increasing job
counter; `get_pbs_client` constructs a fresh one per tool call in mock mode. -/
structure MockPBS where
  server : String := "mock-pbs-server"
  jobs : List (String × MockJobInfo) := []
  job_counter : Nat := 1000
deriving DecidableEq, Repr

/-- The freshly constructed client that `get_pbs_client` yields in mock
mode. -/
def MockPBS.init : MockPBS := {}

/-- The attribute map `submit_pbs_job` passes to `submit`: the account is
always present, `Job_Name` and `Resource_List` only when supplied. -/
structure SubmitAttrs where
  account_name : String
  job_name : Option String := none
  resource_list : Option (List (String × String)) := none
deriving DecidableEq, Repr

/-- `MockPBSClient.submit`: assign `<counter>.<server>`, advance the
counter, and store a job record with state `Q`.  Submission never fails. -/
def MockPBS.submit (c : MockPBS) (_script_path : String) (queue : Option String)
    (attrs : Option SubmitAttrs) (ctime : String) : MockPBS × String :=
  let job_id := toString c.job_counter ++ "." ++ c.server
  let base : List (String × String) :=
    [("Job_Name", match attrs with
      | some a => a.job_name.getD "mock_job"
      | none => "mock_job"),
     ("job_state", "Q"),
     ("queue", match queue with
      | some q => if q ≠ "" then q else "workq"
      | none => "workq"),
     ("ctime", ctime),
     ("Job_Owner", "mockuser@localhost")]
  let withAcct := match attrs with
    | some a => dictInsert base "Account_Name" a.account_name
    | none => base
  let job_attrs := match attrs with
    | some a =>
      match a.resource_list with
      | some rl =>
        rl.foldl (fun acc p => dictInsert acc ("Resource_List." ++ p.1) p.2) withAcct
      | none => withAcct
    | none => withAcct
  ({ c with
      jobs := dictInsert c.jobs job_id ⟨job_id, job_attrs⟩
      job_counter := c.job_counter + 1 },
    job_id)

/-- `MockPBSClient.stat_jobs`: a singleton or empty list for a truthy id,
the whole job map otherwise. -/
def MockPBS.stat_jobs (c : MockPBS) (job_id : Option String) : List MockJobInfo :=
  match job_id with
  | some id =>
    if id ≠ "" then
      match dictGet c.jobs id with
      | some j => [j]
      | none => []
    else c.jobs.map Prod.snd
  | none => c.jobs.map Prod.snd

/-- `MockPBSClient.select_jobs`: keep the jobs whose attributes match every
criterion. -/
def MockPBS.select_jobs (c : MockPBS) (criteria : List (String × String)) :
    List MockJobInfo :=
  (c.jobs.map Prod.snd).filter
    (fun j => criteria.all (fun kv => dictGet j.attrs kv.1 == some kv.2))

/-- `MockPBSClient.delete_job`: drop the entry when present; silently a
no-op otherwise. -/
def MockPBS.delete_job (c : MockPBS) (job_id : String) (_force : Bool) : MockPBS :=
  { c with jobs := c.jobs.filter (fun p => p.1 ≠ job_id) }

/-- `MockPBSClient.hold_job`: flip the state field to `H` when present. -/
def MockPBS.hold_job (c : MockPBS) (job_id : String) : MockPBS :=
  { c with jobs := c.jobs.map (fun p =>
      if p.1 = job_id then (p.1, { p.2 with attrs := dictInsert p.2.attrs "job_state" "H" })
      else p) }

/-- `MockPBSClient.release_job`: flip the state field back to `Q`. -/
def MockPBS.release_job (c : MockPBS) (job_id : String) : MockPBS :=
  { c with jobs := c.jobs.map (fun p =>
      if p.1 = job_id then (p.1, { p.2 with attrs := dictInsert p.2.attrs "job_state" "Q" })
      else p) }

/-! ### System configuration (`config/system.py`), response values and
formatting (`utils/formatting.py`) -/

/-- The slice of `QueueConfig` the coordinator reads. -/
structure QueueConfig where
  name : String
deriving DecidableEq, Repr

/-- The slice of `SystemConfig` the coordinator reads. -/
structure SystemConfig where
  name : String
  display_name : String
  pbs_server : String
  queues : List (String × QueueConfig) := []
deriving DecidableEq, Repr

/-- `SystemConfig.get_default_queue`: `debug` when configured, otherwise the
first queue, otherwise none. -/
def SystemConfig.get_default_queue (c : SystemConfig) : Option QueueConfig :=
  match dictGet c.queues "debug" with
  | some q => some q
  | none => c.queues.head?.map Prod.snd

/-- `JOB_STATES` from `config/constants.py`. -/
def JOB_STATES : List (String × String) :=
  [("Q", "Queued"), ("R", "Running"), ("H", "Held"), ("E", "Exiting"),
   ("F", "Finished"), ("S", "Suspended"), ("W", "Waiting"),
   ("T", "Transiting"), ("B", "Array job running"), ("X", "Subjob completed")]

/-- JSON-style values appearing in tool response dictionaries. -/
inductive RVal where
  | s (v : String)
  | n (v : Int)
  | b (v : Bool)
  | null
  | dict (fields : List (String × RVal))
  | arr (items : List RVal)

/-- A tool response: the returned Python dictionary, in insertion order. -/
abbrev Resp := List (String × RVal)

/-- Read a key of a response dictionary. -/
def respGet (r : Resp) (k : String) : Option RVal := dictGet r k

/-- Embed a Python `Optional[str]` field value (`None` becomes JSON null). -/
def optStr : Option String → RVal
  | some v => .s v
  | none => .null

/-- Embed a metadata value into a response value. -/
def jvalToR : JVal → RVal
  | .jnum v => .n v
  | .jstr v => .s v

/-- `format_job_status` from `utils/formatting.py`: the pure, total
translation of a scheduler job record into a normalized status dictionary. -/
def format_job_status (job : MockJobInfo) : Resp :=
  let attrs := job.attrs
  let resource_list := attrs.filterMap (fun kv =>
    if kv.1.startsWith "Resource_List." then some (kv.1.drop 14, kv.2) else none)
  let resources_used := attrs.filterMap (fun kv =>
    if kv.1.startsWith "resources_used." then some (kv.1.drop 15, kv.2) else none)
  let state_code := (dictGet attrs "job_state").getD ""
  let state_desc := (dictGet JOB_STATES state_code).getD state_code
  [("job_id", .s job.name),
   ("name", optStr (dictGet attrs "Job_Name")),
   ("state", .s state_code),
   ("state_description", .s state_desc),
   ("queue", optStr (dictGet attrs "queue")),
   ("account", optStr (dictGet attrs "Account_Name")),
   ("owner", optStr (dictGet attrs "Job_Owner")),
   ("walltime", .dict [("requested", optStr (dictGet resource_list "walltime")),
                       ("used", optStr (dictGet resources_used "walltime"))]),
   ("nodes", .dict [("requested", optStr (dictGet resource_list "select")),
                    ("assigned", optStr (dictGet attrs "exec_host"))]),
   ("created", optStr (dictGet attrs "ctime")),
   ("started", optStr (dictGet attrs "stime")),
   ("exit_status", optStr (dictGet attrs "Exit_status"))]

/-! ### PBS tools (`core/pbs_tools.py`)

Each tool is a function of the workspace store and of the client that
`get_pbs_client` would yield; it returns the response dictionary, the new
store, and `some` final client state when a client was acquired (`none` when
the tool returned before any scheduler interaction). -/

/-- The outcome of one tool invocation. -/
structure ToolOut where
  resp : Resp
  store : Store
  client : Option MockPBS

/-- Steps 1 of `submit_pbs_job`: resolve the script path (and the derived
select spec) from the workspace when a workspace id is given. -/
def resolveScript (hasWM : Bool) (store : Store)
    (script_path workspace_id select_spec : Option String) :
    Except Resp (Option WorkspaceInfo × Option String × Option String) :=
  if optTruthy workspace_id ∧ hasWM then
    match get_workspace store (workspace_id.getD "") with
    | none =>
      .error [("error", .s ("Workspace " ++ workspace_id.getD "" ++ " not found")),
              ("status", .s "failed")]
    | some wi =>
      if ¬ optTruthy wi.script_path then
        .error [("error", .s ("Workspace " ++ workspace_id.getD "" ++
                  " has no submit script")),
                ("status", .s "failed")]
      else
        let sel := if ¬ optTruthy select_spec ∧ wi.metadata ≠ [] then
            match dictGet wi.metadata "num_nodes" with
            | some v => if v.truthy then some v.pyStr else select_spec
            | none => select_spec
          else select_spec
        .ok (some wi, wi.script_path, sel)
  else if ¬ optTruthy script_path then
    .error [("error", .s "Either script_path or workspace_id must be provided"),
            ("status", .s "failed")]
  else .ok (none, script_path, select_spec)

/-- `submit_pbs_job`: resolve the script, validate account / walltime /
filesystems in that order, build the attribute map, default the queue,
submit through the scheduler client, update the workspace on success, and
return the structured result. -/
def submit_pbs_job (cfg : SystemConfig) (hasWM : Bool) (store : Store)
    (pbs : MockPBS) (ctime : String)
    (script_path workspace_id queue job_name : Option String)
    (account : String) (select_spec walltime filesystems : Option String) :
    ToolOut :=
  match resolveScript hasWM store script_path workspace_id select_spec with
  | .error r => ⟨r, store, none⟩
  | .ok (wi, sp, sel) =>
    match validate_account account with
    | .error m => ⟨[("error", .s m), ("status", .s "failed")], store, none⟩
    | .ok acct =>
      let wres : Except String Unit := match walltime with
        | some w => if w ≠ "" then validate_walltime w else .ok ()
        | none => .ok ()
      match wres with
      | .error m => ⟨[("error", .s m), ("status", .s "failed")], store, none⟩
      | .ok _ =>
        let fres : Except String Unit := match filesystems with
          | some f => if f ≠ "" then validate_filesystems f else .ok ()
          | none => .ok ()
        match fres with
        | .error m => ⟨[("error", .s m), ("status", .s "failed")], store, none⟩
        | .ok _ =>
          let resource_list : List (String × String) :=
            (if optTruthy sel then [("select", sel.getD ""), ("place", "scatter")]
             else []) ++
            (if optTruthy walltime then [("walltime", walltime.getD "")] else []) ++
            (if optTruthy filesystems then [("filesystems", filesystems.getD "")]
             else [])
          let attrs : SubmitAttrs :=
            { account_name := acct
              job_name := if optTruthy job_name then some (job_name.getD "") else none
              resource_list :=
                if resource_list ≠ [] then some resource_list else none }
          let q := if optTruthy queue then queue.getD ""
            else match cfg.get_default_queue with
              | some dq => dq.name
              | none => "workq"
          let r := pbs.submit (sp.getD "") (some q) (some attrs) ctime
          let store2 := match wi with
            | some w =>
              if hasWM then
                (update_workspace store w.workspace_id (some "submitted")
                  (some r.2) none none).1
              else store
            | none => store
          let base : Resp :=
            [("job_id", .s r.2), ("queue", .s q), ("status", .s "submitted"),
             ("system", .s cfg.display_name)]
          let resp := match wi with
            | some w => base ++ [("workspace_id", .s w.workspace_id),
                                 ("workspace_path", .s w.path)]
            | none => base
          ⟨resp, store2, some r.1⟩

/-- `get_job_status`: validate the job id (failure responses carry only the
error message), then query the scheduler for the single id. -/
def get_job_status_tool (store : Store) (pbs : MockPBS) (job_id : String) :
    ToolOut :=
  match validate_job_id job_id with
  | .error m => ⟨[("error", .s m)], store, none⟩
  | .ok _ =>
    match pbs.stat_jobs (some job_id) with
    | [] => ⟨[("error", .s ("Job " ++ job_id ++ " not found"))], store, some pbs⟩
    | j :: _ => ⟨format_job_status j, store, some pbs⟩

/-- `list_jobs`: select or stat, filter by queue, format, summarize. -/
def list_jobs_tool (cfg : SystemConfig) (store : Store) (pbs : MockPBS)
    (state queue : Option String) : ToolOut :=
  let jobs := if optTruthy state then pbs.select_jobs [("job_state", state.getD "")]
    else pbs.stat_jobs none
  let jobs := if optTruthy queue then
      jobs.filter (fun j => dictGet j.attrs "queue" == some (queue.getD ""))
    else jobs
  let summary := jobs.foldl (fun acc j =>
      let st := (dictGet j.attrs "job_state").getD "unknown"
      dictInsert acc st ((dictGet acc st).getD 0 + 1)) ([] : List (String × Int))
  ⟨[("jobs", .arr (jobs.map (fun j => .dict (format_job_status j)))),
    ("total", .n jobs.length),
    ("summary", .dict (summary.map (fun p => (p.1, RVal.n p.2)))),
    ("system", .s cfg.display_name)], store, some pbs⟩

/-- `delete_job`: validate the id, then perform the single scheduler
delete call. -/
def delete_job_tool (store : Store) (pbs : MockPBS) (job_id : String)
    (force : Bool) : ToolOut :=
  match validate_job_id job_id with
  | .error m => ⟨[("error", .s m), ("status", .s "failed")], store, none⟩
  | .ok _ =>
    ⟨[("job_id", .s job_id), ("status", .s "deleted")], store,
      some (pbs.delete_job job_id force)⟩

/-- `hold_job`: validate the id, then perform the single scheduler hold
call. -/
def hold_job_tool (store : Store) (pbs : MockPBS) (job_id : String) : ToolOut :=
  match validate_job_id job_id with
  | .error m => ⟨[("error", .s m), ("status", .s "failed")], store, none⟩
  | .ok _ =>
    ⟨[("job_id", .s job_id), ("status", .s "held")], store,
      some (pbs.hold_job job_id)⟩

/-- `release_job`: validate the id, then perform the single scheduler
release call. -/
def release_job_tool (store : Store) (pbs : MockPBS) (job_id : String) : ToolOut :=
  match validate_job_id job_id with
  | .error m => ⟨[("error", .s m), ("status", .s "failed")], store, none⟩
  | .ok _ =>
    ⟨[("job_id", .s job_id), ("status", .s "released")], store,
      some (pbs.release_job job_id)⟩

/-! ### Workspace tools (`core/workspace_tools.py`) -/

/-- `create_job_workspace`: wrap `create_workspace`, turning an `OSError`
into a failed response and a success into a `created` response. -/
def create_job_workspace_tool (m : Manager) (s : Store) (wid : String)
    (ts : Timestamp) (job_name : String) (description : Option String) :
    Resp × Store :=
  let metadata : List (String × JVal) :=
    if optTruthy description then [("description", .jstr (description.getD ""))]
    else []
  match create_workspace m s wid ts job_name metadata with
  | .error e => ([("error", .s e), ("status", .s "failed")], s)
  | .ok (s2, info) =>
    ([("workspace_id", .s info.workspace_id), ("path", .s info.path),
      ("job_name", .s info.job_name), ("created_at", .s info.created_at),
      ("system", .s info.system), ("status", .s "created")], s2)

/-- `get_workspace_info`: a `not_found` response for an unknown id, and
otherwise a response echoing the stored record, including its lifecycle
status verbatim in the `status` field. -/
def get_workspace_info_tool (s : Store) (workspace_id : String) : Resp :=
  match get_workspace s workspace_id with
  | none =>
    [("error", .s ("Workspace " ++ workspace_id ++ " not found")),
     ("status", .s "not_found")]
  | some info =>
    [("workspace_id", .s info.workspace_id), ("path", .s info.path),
     ("job_name", .s info.job_name), ("created_at", .s info.created_at),
     ("system", .s info.system), ("status", .s info.status),
     ("job_id", optStr info.job_id), ("script_path", optStr info.script_path),
     ("metadata", .dict (info.metadata.map (fun p => (p.1, jvalToR p.2))))]

/-- `list_workspaces` tool wrapper: a listing response with no status
discriminator of its own. -/
def list_workspaces_tool (m : Manager) (s : Store) (status : Option String)
    (limit : Nat) : Resp :=
  let ws := list_workspaces s status limit
  [("workspaces", .arr (ws.map (fun w => .dict
      [("workspace_id", .s w.workspace_id), ("path", .s w.path),
       ("job_name", .s w.job_name), ("created_at", .s w.created_at),
       ("status", .s w.status), ("job_id", optStr w.job_id)]))),
   ("count", .n ws.length),
   ("base_path", .s m.base)]

/-- `cleanup_workspace` tool wrapper: `not_found`, `removed` or
`not_removed`. -/
def cleanup_workspace_tool (s : Store) (workspace_id : String) (force : Bool) :
    Resp × Store :=
  match get_workspace s workspace_id with
  | none =>
    ([("error", .s ("Workspace " ++ workspace_id ++ " not found")),
      ("status", .s "not_found")], s)
  | some info =>
    let r := cleanup_workspace s workspace_id force
    if r.2 then
      ([("workspace_id", .s workspace_id), ("path", .s info.path),
        ("status", .s "removed")], r.1)
    else
      ([("workspace_id", .s workspace_id), ("path", .s info.path),
        ("current_status", .s info.status), ("status", .s "not_removed"),
        ("message", .s ("Workspace has active/submitted job. " ++
          "Use force=True to remove anyway."))], r.1)

/-! ### Concrete fixtures used by witnesses and counterexamples -/

/-- A concrete system configuration. -/
def cfg0 : SystemConfig :=
  { name := "polaris", display_name := "Polaris", pbs_server := "polaris-pbs",
    queues := [("debug", { name := "debug" })] }

/-- A concrete workspace manager. -/
def mgr0 : Manager :=
  { base := "/u/borealis_jobs", system_name := "polaris" }

/-- A concrete creation instant. -/
def ts0 : Timestamp :=
  { year := 2026, month := 10, day := 12, hour := 3, minute := 4, second := 5 }

/-- A concrete active workspace record. -/
def w0 : WorkspaceInfo :=
  { workspace_id := "abc123def456"
    path := "/u/borealis_jobs/job_20261012_030405"
    job_name := "job"
    created_at := "2026-10-12T03:04:05"
    system := "polaris"
    status := "active"
    job_id := none
    script_path := some "/u/borealis_jobs/job_20261012_030405/submit.sh"
    metadata := [("a", JVal.jnum 1)] }

/-- A concrete store holding just `w0`. -/
def store0 : Store := ⟨[(w0.path, some w0)]⟩

/-! ### Store lemmas -/

/-- A loadable entry of a well-formed store records its own directory. -/
theorem Store.wf.path_eq {s : Store} (h : s.wf) {e : String × Option WorkspaceInfo}
    (he : e ∈ s.entries) {i : WorkspaceInfo} (hi : e.2 = some i) : i.path = e.1 := by
  have h1 := h.1 e he
  rw [hi] at h1
  simpa [Option.all] using h1

/-- Characterization of a probe hit. -/
theorem wsProbe_eq_some {id : String} {e : String × Option WorkspaceInfo}
    {w : WorkspaceInfo} :
    wsProbe id e = some w ↔ e.2 = some w ∧ w.workspace_id = id := by
  rcases e with ⟨p, meta⟩
  cases meta with
  | none => simp [wsProbe]
  | some i =>
    simp only [wsProbe]
    by_cases hi : i.workspace_id = id
    · simp only [hi, if_pos]
      constructor
      · rintro h
        cases h
        exact ⟨rfl, hi⟩
      · rintro ⟨h, _⟩
        cases h
        rfl
    · simp only [hi, if_neg]
      constructor
      · rintro h
        cases h
      · rintro ⟨h, hw⟩
        cases h
        exact absurd hw hi

/-- A successful `get_workspace` returns a member record with the requested
id. -/
theorem get_workspace_mem {s : Store} {id : String} {w : WorkspaceInfo}
    (h : get_workspace s id = some w) :
    (∃ p, (p, some w) ∈ s.entries) ∧ w.workspace_id = id := by
  obtain ⟨e, he, hp⟩ := List.exists_of_findSome?_eq_some h
  rw [wsProbe_eq_some] at hp
  refine ⟨⟨e.1, ?_⟩, hp.2⟩
  have : e = (e.1, some w) := by
    rcases e with ⟨p, meta⟩
    simpa using hp.1
  rwa [this] at he

/-- In a well-formed store, `get_workspace` finds the record under its own
path. -/
theorem get_workspace_mem_wf {s : Store} (hwf : s.wf) {id : String}
    {w : WorkspaceInfo} (h : get_workspace s id = some w) :
    (w.path, some w) ∈ s.entries ∧ w.workspace_id = id := by
  obtain ⟨⟨p, hp⟩, hid⟩ := get_workspace_mem h
  have := hwf.path_eq hp rfl
  subst this
  exact ⟨hp, hid⟩

/-- Dropping the head entry preserves distinctness of workspace ids. -/
theorem ids_nodup_tail {e : String × Option WorkspaceInfo}
    {rest : List (String × Option WorkspaceInfo)}
    (h : (((e :: rest).filterMap Prod.snd).map WorkspaceInfo.workspace_id).Nodup) :
    ((rest.filterMap Prod.snd).map WorkspaceInfo.workspace_id).Nodup := by
  rcases e with ⟨p, meta⟩
  cases meta with
  | none => simpa [List.filterMap_cons] using h
  | some i =>
    rw [List.filterMap_cons] at h
    simp only [List.map_cons] at h
    exact (List.nodup_cons.mp h).2

/-- When workspace ids are distinct, the scan returns the record of any
member entry with the requested id (first-match equals unique-match). -/
theorem findSome?_wsProbe_of_mem {id : String} {w : WorkspaceInfo}
    (hid : w.workspace_id = id) :
    ∀ (l : List (String × Option WorkspaceInfo)),
      ((l.filterMap Prod.snd).map WorkspaceInfo.workspace_id).Nodup →
      ∀ p, (p, some w) ∈ l →
      l.findSome? (wsProbe id) = some w := by
  intro l
  induction l with
  | nil =>
    intro _ p hp
    simp at hp
  | cons e rest ih =>
    intro hnd p hp
    rw [List.findSome?_cons]
    cases hpr : wsProbe id e with
    | some j =>
      have hj := wsProbe_eq_some.mp hpr
      have hjmem : j ∈ (e :: rest).filterMap Prod.snd :=
        List.mem_filterMap.mpr ⟨e, List.mem_cons_self e rest, hj.1⟩
      have hwmem : w ∈ (e :: rest).filterMap Prod.snd :=
        List.mem_filterMap.mpr ⟨(p, some w), hp, rfl⟩
      have heq : j = w :=
        List.inj_on_of_nodup_map hnd hjmem hwmem (by rw [hj.2, hid])
      rw [heq]
    | none =>
      rcases List.mem_cons.mp hp with he | hrest
      · exfalso
        rw [← he] at hpr
        simp [wsProbe, hid] at hpr
      · exact ih (ids_nodup_tail hnd) p hrest

/-- In a well-formed store, a member record is found by `get_workspace`. -/
theorem get_workspace_of_mem {s : Store} (hwf : s.wf) {p : String}
    {w : WorkspaceInfo} (hp : (p, some w) ∈ s.entries) :
    get_workspace s w.workspace_id = some w :=
  findSome?_wsProbe_of_mem rfl s.entries hwf.2.2 p hp

/-- The existence check `Path(info.path).exists()` succeeds for a member
record of a well-formed store. -/
theorem entries_any_path {s : Store} (hwf : s.wf) {p : String}
    {w : WorkspaceInfo} (hp : (p, some w) ∈ s.entries) :
    s.entries.any (fun e => e.1 = w.path) = true := by
  have hpath : w.path = p := hwf.path_eq hp rfl
  exact List.any_eq_true.mpr ⟨(p, some w), hp, by simp [hpath]⟩

/-- Filtering entries preserves store well-formedness. -/
theorem wf_filter {s : Store} (hwf : s.wf)
    (pred : String × Option WorkspaceInfo → Bool) :
    Store.wf ⟨s.entries.filter pred⟩ := by
  refine ⟨?_, ?_, ?_⟩
  · intro e he
    exact hwf.1 e (List.mem_filter.mp he).1
  · exact ((List.filter_sublist s.entries).map Prod.fst).nodup hwf.2.1
  · exact (((List.filter_sublist s.entries).filterMap Prod.snd).map
      WorkspaceInfo.workspace_id).nodup hwf.2.2

/-- Rewriting the metadata file of the found record: the scan afterwards
returns the rewritten record (same id, same path, distinct paths). -/
theorem findSome?_wsProbe_save {id : String} {w w' : WorkspaceInfo}
    (hid : w'.workspace_id = w.workspace_id) :
    ∀ (l : List (String × Option WorkspaceInfo)),
      (∀ e ∈ l, Option.all (fun i => i.path == e.1) e.2 = true) →
      (l.map Prod.fst).Nodup →
      l.findSome? (wsProbe id) = some w →
      (l.map (fun e => if e.1 = w.path then (e.1, some w') else e)).findSome?
          (wsProbe id) = some w' := by
  intro l
  induction l with
  | nil =>
    intro _ _ h
    simp at h
  | cons e rest ih =>
    intro hpaths hnd h
    rw [List.findSome?_cons] at h
    rw [List.map_cons, List.findSome?_cons]
    cases hpr : wsProbe id e with
    | some j =>
      rw [hpr] at h
      have hj : j = w := by cases h; rfl
      subst hj
      have hprc := wsProbe_eq_some.mp hpr
      have hkey : j.path = e.1 := by
        have h1 := hpaths e (List.mem_cons_self e rest)
        rw [hprc.1] at h1
        simpa [Option.all] using h1
      rw [if_pos hkey.symm]
      have : wsProbe id (e.1, some w') = some w' := by
        rw [wsProbe_eq_some]
        exact ⟨rfl, by rw [hid, hprc.2]⟩
      rw [this]
    | none =>
      rw [hpr] at h
      have hkey : ¬ e.1 = w.path := by
        intro hcontra
        obtain ⟨e', he', hp'⟩ := List.exists_of_findSome?_eq_some h
        have he'2 := (wsProbe_eq_some.mp hp').1
        have hp'e : w.path = e'.1 := by
          have h1 := hpaths e' (List.mem_cons_of_mem e he')
          rw [he'2] at h1
          simpa [Option.all] using h1
        have : e.1 ∈ rest.map Prod.fst := by
          rw [hcontra, hp'e]
          exact List.mem_map_of_mem Prod.fst he'
        exact (List.nodup_cons.mp (by simpa using hnd)).1 this
      rw [if_neg hkey, hpr]
      exact ih (fun e' he' => hpaths e' (List.mem_cons_of_mem e he'))
        (List.nodup_cons.mp (by simpa using hnd)).2 h

/-- Weakening the tail character class weakens the whole pattern. -/
theorem matchNumDotTail_mono {p q : Char → Bool}
    (hpq : ∀ c, p c = true → q c = true) :
    ∀ s : String, matchNumDotTail p s = true → matchNumDotTail q s = true := by
  intro s h
  unfold matchNumDotTail at h ⊢
  rw [Bool.and_eq_true] at h ⊢
  refine ⟨h.1, ?_⟩
  have h2 := h.2
  split at h2
  next tail heq =>
    rw [Bool.and_eq_true] at h2 ⊢
    refine ⟨h2.1, ?_⟩
    rw [List.all_eq_true] at h2 ⊢
    intro c hc
    exact hpq c (h2.2 c hc)
  next => cases h2

/-! ### Claim theorems -/

/-- C3 (amended): the queryStatus, cancel, hold and release operations gate
on the pattern the code actually compiles, `^\d+\..+$` — a strict superset
of the spec regex `^\d+\.\S+$` that also admits whitespace (other than a
newline) in the server part.  Every id the spec regex accepts is accepted;
every id rejected by the compiled pattern yields the validation-error
failure before any scheduler client is created; every accepted id reaches
the single corresponding scheduler call. -/
theorem jobid_validation_amended :
    (∀ s, jobIdSpecMatch s = true → jobIdPatternMatch s = true) ∧
    (∀ store pbs id, jobIdPatternMatch id = false →
      get_job_status_tool store pbs id =
        ⟨[("error", RVal.s (invalidJobIdMsg id))], store, none⟩ ∧
      (∀ force, delete_job_tool store pbs id force =
        ⟨[("error", RVal.s (invalidJobIdMsg id)), ("status", RVal.s "failed")],
          store, none⟩) ∧
      hold_job_tool store pbs id =
        ⟨[("error", RVal.s (invalidJobIdMsg id)), ("status", RVal.s "failed")],
          store, none⟩ ∧
      release_job_tool store pbs id =
        ⟨[("error", RVal.s (invalidJobIdMsg id)), ("status", RVal.s "failed")],
          store, none⟩) ∧
    (∀ store pbs id, jobIdPatternMatch id = true →
      (get_job_status_tool store pbs id).client = some pbs ∧
      (∀ force, (delete_job_tool store pbs id force).client =
        some (pbs.delete_job id force)) ∧
      (hold_job_tool store pbs id).client = some (pbs.hold_job id) ∧
      (release_job_tool store pbs id).client = some (pbs.release_job id)) := by
  refine ⟨?_, ?_, ?_⟩
  · intro s h
    refine matchNumDotTail_mono (fun c hc => ?_) s h
    simp only [Bool.not_eq_true'] at hc
    simp only [bne_iff_ne, ne_eq]
    intro hceq
    rw [hceq] at hc
    simp [Char.isWhitespace] at hc
  · intro store pbs id h
    have hv : validate_job_id id = .error (invalidJobIdMsg id) := by
      unfold validate_job_id
      rw [if_neg (by simp [h])]
    refine ⟨?_, fun force => ?_, ?_, ?_⟩ <;>
      simp [get_job_status_tool, delete_job_tool, hold_job_tool,
        release_job_tool, hv]
  · intro store pbs id h
    have hv : validate_job_id id = .ok () := by
      unfold validate_job_id
      rw [if_pos h]
    refine ⟨?_, fun force => ?_, ?_, ?_⟩ <;>
      simp [get_job_status_tool, delete_job_tool, hold_job_tool,
        release_job_tool, hv]
    cases pbs.stat_jobs (some id) <;> rfl

/-- Witness: `jobid_validation_amended` applied at the rejected id `nope`
and the accepted id `123.server`. -/
theorem jobid_validation_amended_witness :
    (delete_job_tool store0 MockPBS.init "nope" true =
      ⟨[("error", RVal.s (invalidJobIdMsg "nope")), ("status", RVal.s "failed")],
        store0, none⟩) ∧
    (hold_job_tool store0 MockPBS.init "123.server").client =
      some (MockPBS.init.hold_job "123.server") :=
  ⟨(jobid_validation_amended.2.1 store0 MockPBS.init "nope" (by decide)).2.1 true,
   (jobid_validation_amended.2.2 store0 MockPBS.init "123.server"
      (by decide)).2.2.1⟩

/-- C3 counterexample: the id `1. x` (space inside the server part) does not
match the regex `^\d+\.\S+$` the claim states, yet `delete_job` accepts it
and performs the scheduler call instead of returning a validation failure. -/
theorem jobid_spec_regex_counterexample :
    jobIdSpecMatch "1. x" = false ∧
    jobIdPatternMatch "1. x" = true ∧
    delete_job_tool store0 MockPBS.init "1. x" false =
      ⟨[("job_id", RVal.s "1. x"), ("status", RVal.s "deleted")], store0,
        some (MockPBS.init.delete_job "1. x" false)⟩ :=
  ⟨by decide, by decide, rfl⟩

/-- C9: the cancel (delete_job), hold and release operations neither read
nor write any workspace record: for every store, scheduler-client state,
job id and force flag, the workspace store they return is exactly the store
they were given, on the validation-failure path and on the scheduler path
alike. -/
theorem cancel_hold_release_workspace_frame :
    ∀ store pbs id force,
      (delete_job_tool store pbs id force).store = store ∧
      (hold_job_tool store pbs id).store = store ∧
      (release_job_tool store pbs id).store = store := by
  intro store pbs id force
  cases hv : validate_job_id id with
  | error m =>
    refine ⟨?_, ?_, ?_⟩ <;>
      simp [delete_job_tool, hold_job_tool, release_job_tool, hv]
  | ok u =>
    refine ⟨?_, ?_, ?_⟩ <;>
      simp [delete_job_tool, hold_job_tool, release_job_tool, hv]

/-! ### Submission-path lemmas -/

/-- Every failure of the script-resolution stage is an error/failed pair. -/
theorem resolveScript_error_shape {hasWM : Bool} {store : Store}
    {sp wsid sel : Option String} {r : Resp}
    (h : resolveScript hasWM store sp wsid sel = .error r) :
    ∃ m, r = [("error", RVal.s m), ("status", RVal.s "failed")] := by
  unfold resolveScript at h
  split at h
  · split at h
    · cases h
      exact ⟨_, rfl⟩
    · split at h
      · cases h
        exact ⟨_, rfl⟩
      · cases h
  · split at h
    · cases h
      exact ⟨_, rfl⟩
    · cases h

/-- A direct script path resolves to itself when no workspace takes part. -/
theorem resolveScript_direct {hasWM : Bool} {store : Store}
    {sp wsid sel : Option String}
    (hws : optTruthy wsid = false ∨ hasWM = false) (hsp : optTruthy sp = true) :
    resolveScript hasWM store sp wsid sel = .ok (none, sp, sel) := by
  unfold resolveScript
  have hcond : ¬ (optTruthy wsid = true ∧ hasWM = true) := by
    rcases hws with h | h <;> simp [h]
  rw [if_neg hcond, if_neg (by simp [hsp])]

/-- A resolution failure short-circuits `submit_pbs_job` before any
validation or scheduler interaction. -/
theorem submit_resolve_error {cfg : SystemConfig} {hasWM : Bool} {store : Store}
    {pbs : MockPBS} {ctime : String} {sp wsid q jn : Option String}
    {acct : String} {sel wt fs : Option String} {r : Resp}
    (h : resolveScript hasWM store sp wsid sel = .error r) :
    submit_pbs_job cfg hasWM store pbs ctime sp wsid q jn acct sel wt fs =
      ⟨r, store, none⟩ := by
  unfold submit_pbs_job
  rw [h]

/-- A blank account fails validation right after resolution succeeds. -/
theorem submit_resolve_ok_blank {cfg : SystemConfig} {hasWM : Bool}
    {store : Store} {pbs : MockPBS} {ctime : String} {sp wsid q jn : Option String}
    {acct : String} {sel wt fs : Option String}
    {res : Option WorkspaceInfo × Option String × Option String}
    (h : resolveScript hasWM store sp wsid sel = .ok res)
    (hacct : pyStrip acct = "") :
    submit_pbs_job cfg hasWM store pbs ctime sp wsid q jn acct sel wt fs =
      ⟨[("error", RVal.s accountRequiredMsg), ("status", RVal.s "failed")],
        store, none⟩ := by
  have hva : validate_account acct = .error accountRequiredMsg := by
    unfold validate_account
    rw [if_pos (Or.inr hacct)]
  unfold submit_pbs_job
  rw [h]
  rcases res with ⟨wi, sp', sel'⟩
  rw [hva]

/-- The status discriminator of every `submit_pbs_job` response: `failed`
with an error message, or `submitted`. -/
theorem submit_status_cases (cfg : SystemConfig) (hasWM : Bool) (store : Store)
    (pbs : MockPBS) (ctime : String) (sp wsid q jn : Option String)
    (acct : String) (sel wt fs : Option String) :
    ∃ st, (st = "failed" ∨ st = "submitted") ∧
      respGet (submit_pbs_job cfg hasWM store pbs ctime sp wsid q jn acct sel
          wt fs).resp "status" = some (RVal.s st) ∧
      (st = "failed" → ∃ m,
        respGet (submit_pbs_job cfg hasWM store pbs ctime sp wsid q jn acct sel
            wt fs).resp "error" = some (RVal.s m)) := by
  cases hres : resolveScript hasWM store sp wsid sel with
  | error r =>
    obtain ⟨m, rfl⟩ := resolveScript_error_shape hres
    rw [submit_resolve_error hres]
    exact ⟨"failed", Or.inl rfl, by simp [respGet, dictGet],
      fun _ => ⟨m, by simp [respGet, dictGet]⟩⟩
  | ok res =>
    rcases res with ⟨wi, sp', sel'⟩
    unfold submit_pbs_job
    rw [hres]
    cases hva : validate_account acct with
    | error m =>
      exact ⟨"failed", Or.inl rfl, by simp [respGet, dictGet],
        fun _ => ⟨m, by simp [respGet, dictGet]⟩⟩
    | ok acct' =>
      cases hw : (match wt with
        | some w => if w ≠ "" then validate_walltime w else Except.ok ()
        | none => Except.ok ()) with
      | error m =>
        exact ⟨"failed", Or.inl rfl, by simp [respGet, dictGet],
          fun _ => ⟨m, by simp [respGet, dictGet]⟩⟩
      | ok u =>
        cases hf : (match fs with
          | some f => if f ≠ "" then validate_filesystems f else Except.ok ()
          | none => Except.ok ()) with
        | error m =>
          exact ⟨"failed", Or.inl rfl, by simp [respGet, dictGet],
            fun _ => ⟨m, by simp [respGet, dictGet]⟩⟩
        | ok u =>
          refine ⟨"submitted", Or.inr rfl, ?_, fun hc => absurd hc (by decide)⟩
          cases wi <;> simp [respGet, dictGet]

/-- C1 (amended): every submit invocation whose account is empty or
whitespace-only returns a structured failure (an error message plus status
`failed`), creates no scheduler client (hence the simulated backend's job
counter cannot advance), and leaves the workspace store untouched; whenever
the script path actually resolves without a workspace lookup (an explicit
`script_path` and no workspace id in play), the error is precisely the
account-validation message.  (A blank account combined with a failing
workspace lookup reports the workspace error first — see the
counterexample.) -/
theorem submit_blank_account_amended (cfg : SystemConfig) (hasWM : Bool)
    (store : Store) (pbs : MockPBS) (ctime : String) (sp wsid q jn : Option String)
    (acct : String) (sel wt fs : Option String) (hacct : pyStrip acct = "") :
    (∃ m, respGet (submit_pbs_job cfg hasWM store pbs ctime sp wsid q jn acct
        sel wt fs).resp "error" = some (RVal.s m)) ∧
    respGet (submit_pbs_job cfg hasWM store pbs ctime sp wsid q jn acct sel
        wt fs).resp "status" = some (RVal.s "failed") ∧
    (submit_pbs_job cfg hasWM store pbs ctime sp wsid q jn acct sel
        wt fs).client = none ∧
    (submit_pbs_job cfg hasWM store pbs ctime sp wsid q jn acct sel
        wt fs).store = store ∧
    ((optTruthy wsid = false ∨ hasWM = false) → optTruthy sp = true →
      respGet (submit_pbs_job cfg hasWM store pbs ctime sp wsid q jn acct sel
          wt fs).resp "error" = some (RVal.s accountRequiredMsg)) := by
  cases hres : resolveScript hasWM store sp wsid sel with
  | error r =>
    obtain ⟨m, rfl⟩ := resolveScript_error_shape hres
    rw [submit_resolve_error hres]
    refine ⟨⟨m, by simp [respGet, dictGet]⟩, by simp [respGet, dictGet], rfl, rfl,
      fun hws hsp => ?_⟩
    rw [resolveScript_direct hws hsp] at hres
    cases hres
  | ok res =>
    rw [submit_resolve_ok_blank hres hacct]
    exact ⟨⟨accountRequiredMsg, by simp [respGet, dictGet]⟩,
      by simp [respGet, dictGet], rfl, rfl,
      fun _ _ => by simp [respGet, dictGet]⟩

/-- Witness: `submit_blank_account_amended` at a whitespace-only account and
a direct script path. -/
theorem submit_blank_account_amended_witness :
    (submit_pbs_job cfg0 false store0 MockPBS.init "t" (some "/tmp/s.sh") none
        none none "   " none none none).client = none ∧
    respGet (submit_pbs_job cfg0 false store0 MockPBS.init "t" (some "/tmp/s.sh")
        none none none "   " none none none).resp "error" =
      some (RVal.s accountRequiredMsg) :=
  have h := submit_blank_account_amended cfg0 false store0 MockPBS.init "t"
    (some "/tmp/s.sh") none none none "   " none none none (by decide)
  ⟨h.2.2.1, h.2.2.2.2 (Or.inr rfl) (by decide)⟩

/-- C1 counterexample: submitting with a blank account and an unknown
workspace id returns the workspace-not-found resource error, not a
validation error message, so the claim that every blank-account submit
carries a validation error message fails at this input (status `failed` and
the absence of a scheduler call still hold). -/
theorem submit_blank_account_counterexample :
    (submit_pbs_job cfg0 true ⟨[]⟩ MockPBS.init "t" none (some "w1") none none
        "" none none none).resp =
      [("error", RVal.s "Workspace w1 not found"), ("status", RVal.s "failed")] ∧
    "Workspace w1 not found" ≠ accountRequiredMsg :=
  ⟨rfl, by decide⟩

/-- C2 (amended): the status discriminators actually present.  The submit,
delete, hold and release job tools and the workspace create and cleanup
tools always return a status from the fixed set (`failed`/`submitted`,
`failed`/`deleted`, `failed`/`held`, `failed`/`released`, `failed`/`created`,
`not_found`/`removed`/`not_removed`), with every `failed` response carrying
an error string.  But not every operation response carries such a
discriminator: `get_workspace_info` echoes the workspace's stored lifecycle
status verbatim (e.g. `active`) rather than a member of the fixed set, and
`get_job_status`, `list_jobs` and `list_workspaces` responses carry no
`status` key at all — their failures carry only the error string. -/
theorem response_status_discipline :
    (∀ cfg hasWM store pbs ctime sp wsid q jn acct sel wt fs,
      ∃ st, (st = "failed" ∨ st = "submitted") ∧
        respGet (submit_pbs_job cfg hasWM store pbs ctime sp wsid q jn acct sel
            wt fs).resp "status" = some (RVal.s st) ∧
        (st = "failed" → ∃ m,
          respGet (submit_pbs_job cfg hasWM store pbs ctime sp wsid q jn acct
              sel wt fs).resp "error" = some (RVal.s m))) ∧
    (∀ store pbs id force, ∃ st, (st = "failed" ∨ st = "deleted") ∧
        respGet (delete_job_tool store pbs id force).resp "status" =
          some (RVal.s st) ∧
        (st = "failed" → ∃ m,
          respGet (delete_job_tool store pbs id force).resp "error" =
            some (RVal.s m))) ∧
    (∀ store pbs id, ∃ st, (st = "failed" ∨ st = "held") ∧
        respGet (hold_job_tool store pbs id).resp "status" = some (RVal.s st) ∧
        (st = "failed" → ∃ m,
          respGet (hold_job_tool store pbs id).resp "error" = some (RVal.s m))) ∧
    (∀ store pbs id, ∃ st, (st = "failed" ∨ st = "released") ∧
        respGet (release_job_tool store pbs id).resp "status" =
          some (RVal.s st) ∧
        (st = "failed" → ∃ m,
          respGet (release_job_tool store pbs id).resp "error" =
            some (RVal.s m))) ∧
    (∀ m s wid ts jn desc, ∃ st, (st = "failed" ∨ st = "created") ∧
        respGet (create_job_workspace_tool m s wid ts jn desc).1 "status" =
          some (RVal.s st) ∧
        (st = "failed" → ∃ em,
          respGet (create_job_workspace_tool m s wid ts jn desc).1 "error" =
            some (RVal.s em))) ∧
    (∀ s id force, ∃ st,
        (st = "not_found" ∨ st = "removed" ∨ st = "not_removed") ∧
        respGet (cleanup_workspace_tool s id force).1 "status" =
          some (RVal.s st) ∧
        (st = "failed" → ∃ em,
          respGet (cleanup_workspace_tool s id force).1 "error" =
            some (RVal.s em))) ∧
    (∀ s id, respGet (get_workspace_info_tool s id) "status" =
        some (RVal.s ((get_workspace s id).elim "not_found"
          WorkspaceInfo.status))) ∧
    (∀ store pbs id,
      respGet (get_job_status_tool store pbs id).resp "status" = none) ∧
    (∀ cfg store pbs st q,
      respGet (list_jobs_tool cfg store pbs st q).resp "status" = none) ∧
    (∀ m s st lim,
      respGet (list_workspaces_tool m s st lim) "status" = none) := by
  refine ⟨?_, ?_, ?_, ?_, ?_, ?_, ?_, ?_, ?_, ?_⟩
  · intro cfg hasWM store pbs ctime sp wsid q jn acct sel wt fs
    exact submit_status_cases cfg hasWM store pbs ctime sp wsid q jn acct sel
      wt fs
  · intro store pbs id force
    unfold delete_job_tool
    cases hv : validate_job_id id with
    | error m =>
      exact ⟨"failed", Or.inl rfl, by simp [respGet, dictGet],
        fun _ => ⟨m, by simp [respGet, dictGet]⟩⟩
    | ok u =>
      exact ⟨"deleted", Or.inr rfl, by simp [respGet, dictGet],
        fun hc => absurd hc (by decide)⟩
  · intro store pbs id
    unfold hold_job_tool
    cases hv : validate_job_id id with
    | error m =>
      exact ⟨"failed", Or.inl rfl, by simp [respGet, dictGet],
        fun _ => ⟨m, by simp [respGet, dictGet]⟩⟩
    | ok u =>
      exact ⟨"held", Or.inr rfl, by simp [respGet, dictGet],
        fun hc => absurd hc (by decide)⟩
  · intro store pbs id
    unfold release_job_tool
    cases hv : validate_job_id id with
    | error m =>
      exact ⟨"failed", Or.inl rfl, by simp [respGet, dictGet],
        fun _ => ⟨m, by simp [respGet, dictGet]⟩⟩
    | ok u =>
      exact ⟨"released", Or.inr rfl, by simp [respGet, dictGet],
        fun hc => absurd hc (by decide)⟩
  · intro m s wid ts jn desc
    unfold create_job_workspace_tool
    cases hc : create_workspace m s wid ts jn
      (if optTruthy desc = true then [("description", JVal.jstr (desc.getD ""))]
       else []) with
    | error e =>
      exact ⟨"failed", Or.inl rfl, by simp [hc, respGet, dictGet],
        fun _ => ⟨e, by simp [hc, respGet, dictGet]⟩⟩
    | ok r =>
      exact ⟨"created", Or.inr rfl, by simp [hc, respGet, dictGet],
        fun hcq => absurd hcq (by decide)⟩
  · intro s id force
    unfold cleanup_workspace_tool
    cases hg : get_workspace s id with
    | none =>
      exact ⟨"not_found", Or.inl rfl, by simp [respGet, dictGet],
        fun hcq => absurd hcq (by decide)⟩
    | some info =>
      cases hr : (cleanup_workspace s id force).2 with
      | true =>
        exact ⟨"removed", Or.inr (Or.inl rfl), by simp [hr, respGet, dictGet],
          fun hcq => absurd hcq (by decide)⟩
      | false =>
        exact ⟨"not_removed", Or.inr (Or.inr rfl),
          by simp [hr, respGet, dictGet],
          fun hcq => absurd hcq (by decide)⟩
  · intro s id
    unfold get_workspace_info_tool
    cases hg : get_workspace s id with
    | none => simp [respGet, dictGet]
    | some info => simp [respGet, dictGet, List.findSome?]
  · intro store pbs id
    unfold get_job_status_tool
    cases hv : validate_job_id id with
    | error m => simp [respGet, dictGet]
    | ok u =>
      cases hj : pbs.stat_jobs (some id) with
      | nil => simp [respGet, dictGet]
      | cons j js => simp [format_job_status, respGet, dictGet, List.findSome?]
  · intro cfg store pbs st q
    simp [list_jobs_tool, respGet, dictGet, List.findSome?]
  · intro m s st lim
    simp [list_workspaces_tool, respGet, dictGet, List.findSome?]

/-- Witness: `response_status_discipline` at a concrete submit invocation
and a concrete status query. -/
theorem response_status_discipline_witness :
    (∃ st, (st = "failed" ∨ st = "submitted") ∧
      respGet (submit_pbs_job cfg0 false store0 MockPBS.init "t" (some "/s")
          none none none "proj" none none none).resp "status" =
        some (RVal.s st) ∧
      (st = "failed" → ∃ m,
        respGet (submit_pbs_job cfg0 false store0 MockPBS.init "t" (some "/s")
            none none none "proj" none none none).resp "error" =
          some (RVal.s m))) ∧
    respGet (get_job_status_tool store0 MockPBS.init "7.srv").resp "status" =
      none :=
  ⟨response_status_discipline.1 cfg0 false store0 MockPBS.init "t" (some "/s")
      none none none "proj" none none none,
    response_status_discipline.2.2.2.2.2.2.2.1 store0 MockPBS.init "7.srv"⟩

/-- C2 counterexample: the `get_job_status` failure response for a malformed
id carries only the error string — no `status` discriminator at all, and in
particular no `status: failed` tag. -/
theorem get_job_status_missing_status_counterexample :
    (get_job_status_tool store0 MockPBS.init "abc").resp =
      [("error", RVal.s (invalidJobIdMsg "abc"))] ∧
    respGet (get_job_status_tool store0 MockPBS.init "abc").resp "status" =
      none ∧
    respGet (get_job_status_tool store0 MockPBS.init "abc").resp "error" =
      some (RVal.s (invalidJobIdMsg "abc")) :=
  ⟨rfl, rfl, rfl⟩

/-- The record produced by creating workspace `job` at `ts0` under `mgr0`. -/
def wjob : WorkspaceInfo :=
  { workspace_id := "id1"
    path := "/u/borealis_jobs/job_20261012_030405"
    job_name := "job"
    created_at := "2026-10-12T03:04:05"
    system := "polaris"
    status := "active"
    job_id := none
    script_path := none
    metadata := [] }

/-- `ts0` again, later in the same second (microseconds differ). -/
def ts0b : Timestamp :=
  { year := 2026, month := 10, day := 12, hour := 3, minute := 4, second := 5,
    micro := 500000 }

/-- C5 (amended): the directory name carries no disambiguating component
beyond the sanitized job name and the second-resolution timestamp, so two
creates with the same name within the same second derive the same directory
name and the second one fails fatally with the directory-collision error
(`mkdir(exist_ok=False)`); the two calls never silently share a directory. -/
theorem create_same_second_collision (m : Manager) (s : Store)
    (wid1 wid2 : String) (ts : Timestamp) (name : String)
    (md1 md2 : List (String × JVal)) (s1 : Store) (i1 : WorkspaceInfo)
    (h : create_workspace m s wid1 ts name md1 = .ok (s1, i1)) :
    create_workspace m s1 wid2 ts name md2 =
      .error (fileExistsMsg (m.base ++ "/" ++ getWorkspaceDirname name ts)) := by
  unfold create_workspace at h ⊢
  dsimp only at h ⊢
  split at h
  · cases h
  · cases h
    simp

/-- Witness: `create_same_second_collision` at the `job`/`ts0` double
create. -/
theorem create_same_second_collision_witness :
    create_workspace mgr0 ⟨[("/u/borealis_jobs/job_20261012_030405",
        some wjob)]⟩ "id2" ts0 "job" [] =
      .error (fileExistsMsg (mgr0.base ++ "/" ++ getWorkspaceDirname "job" ts0)) :=
  create_same_second_collision mgr0 ⟨[]⟩ "id1" "id2" ts0 "job" [] []
    ⟨[("/u/borealis_jobs/job_20261012_030405", some wjob)]⟩ wjob rfl

/-- C5 counterexample: two creates of `job` within the same second (the
timestamps differ only in microseconds) derive the same directory name, and
the second create fails with the collision error instead of succeeding with
a distinct directory. -/
theorem create_collision_counterexample :
    getWorkspaceDirname "job" ts0 = getWorkspaceDirname "job" ts0b ∧
    create_workspace mgr0 ⟨[]⟩ "id1" ts0 "job" [] =
      .ok (⟨[("/u/borealis_jobs/job_20261012_030405", some wjob)]⟩, wjob) ∧
    create_workspace mgr0
        ⟨[("/u/borealis_jobs/job_20261012_030405", some wjob)]⟩ "id2" ts0b
        "job" [] =
      .error (fileExistsMsg "/u/borealis_jobs/job_20261012_030405") :=
  ⟨rfl, rfl, rfl⟩

/-- C8: round-trip.  When the generated id is fresh for the store (the uuid
assumption) and creation succeeds, `get` of the returned id finds a record
equal to the returned one in every field, and those fields are exactly the
created ones: id, derived path, job name, creation timestamp, system,
status `active`, no job id, no script path, and the given metadata map. -/
theorem create_get_roundtrip (m : Manager) (s : Store) (wid : String)
    (ts : Timestamp) (name : String) (md : List (String × JVal))
    (s1 : Store) (i1 : WorkspaceInfo)
    (hfresh : ∀ e ∈ s.entries, ∀ i : WorkspaceInfo, e.2 = some i →
      i.workspace_id ≠ wid)
    (h : create_workspace m s wid ts name md = .ok (s1, i1)) :
    get_workspace s1 i1.workspace_id = some i1 ∧
    i1 = { workspace_id := wid
           path := m.base ++ "/" ++ getWorkspaceDirname name ts
           job_name := name
           created_at := ts.isoformat
           system := m.system_name
           status := "active"
           job_id := none
           script_path := none
           metadata := md } := by
  unfold create_workspace at h
  dsimp only at h
  split at h
  · cases h
  · cases h
    refine ⟨?_, rfl⟩
    unfold get_workspace
    rw [List.findSome?_append]
    have h1 : s.entries.findSome? (wsProbe wid) = none := by
      rw [List.findSome?_eq_none_iff]
      intro e he
      cases he2 : e.2 with
      | none => simp [wsProbe, he2]
      | some i => simp [wsProbe, he2, hfresh e he i he2]
    rw [h1]
    simp [wsProbe]

/-- Witness: `create_get_roundtrip` on an empty store. -/
theorem create_get_roundtrip_witness :
    get_workspace
        (⟨[("/u/borealis_jobs/job_20261012_030405", some wjob)]⟩ : Store)
        "id1" = some wjob :=
  (create_get_roundtrip mgr0 ⟨[]⟩ "id1" ts0 "job" []
    ⟨[("/u/borealis_jobs/job_20261012_030405", some wjob)]⟩ wjob
    (by simp) rfl).1

/-- C6: metadata patches merge key-by-key.  For every well-formed store and
workspace whose stored metadata map is `(a, 1)`, updating with the patch
`(b, 2)` yields a record whose metadata is `(a, 1), (b, 2)` while every
other field is unchanged, and the merged record is what a subsequent `get`
returns. -/
theorem update_merges_metadata (s : Store) (hwf : s.wf) (id : String)
    (w : WorkspaceInfo) (hget : get_workspace s id = some w)
    (hmeta : w.metadata = [("a", JVal.jnum 1)]) :
    (update_workspace s id none none none (some [("b", JVal.jnum 2)])).2 =
      some { w with metadata := [("a", JVal.jnum 1), ("b", JVal.jnum 2)] } ∧
    get_workspace (update_workspace s id none none none
        (some [("b", JVal.jnum 2)])).1 id =
      some { w with metadata := [("a", JVal.jnum 1), ("b", JVal.jnum 2)] } := by
  have hw2 : dictUpdate w.metadata [("b", JVal.jnum 2)] =
      [("a", JVal.jnum 1), ("b", JVal.jnum 2)] := by
    rw [hmeta]
    rfl
  have hupd : update_workspace s id none none none (some [("b", JVal.jnum 2)]) =
      (⟨s.entries.map (fun e => if e.1 = w.path then
          (e.1, some { w with
            metadata := [("a", JVal.jnum 1), ("b", JVal.jnum 2)] })
        else e)⟩,
       some { w with metadata := [("a", JVal.jnum 1), ("b", JVal.jnum 2)] }) := by
    unfold update_workspace
    rw [hget]
    simp [optTruthy, hw2]
  refine ⟨by rw [hupd], ?_⟩
  rw [hupd]
  have hid2 : ({ w with
      metadata := [("a", JVal.jnum 1), ("b", JVal.jnum 2)] } :
        WorkspaceInfo).workspace_id = w.workspace_id := rfl
  have hw' := (get_workspace_mem hget).2
  rw [← hw']
  rw [← hw'] at hget
  exact findSome?_wsProbe_save hid2 s.entries hwf.1 hwf.2.1 hget

/-- Witness: `update_merges_metadata` on the one-workspace store `store0`. -/
theorem update_merges_metadata_witness :
    (update_workspace store0 "abc123def456" none none none
        (some [("b", JVal.jnum 2)])).2 =
      some { w0 with metadata := [("a", JVal.jnum 1), ("b", JVal.jnum 2)] } :=
  (update_merges_metadata store0 (by refine ⟨?_, ?_, ?_⟩ <;> decide)
    "abc123def456" w0 rfl rfl).1

/-- C7: the cleanup guard.  In a well-formed store, for every workspace with
status `active` or `submitted`, `cleanup(id, force=false)` returns false and
leaves the store untouched while the tool reports `not_removed`;
`cleanup(id, force=true)` removes exactly that workspace's directory entry
and returns true; and for an id with no matching workspace, cleanup returns
false without error and the tool reports `not_found`. -/
theorem cleanup_guard (s : Store) (hwf : s.wf) :
    (∀ id w, get_workspace s id = some w →
      (w.status = "active" ∨ w.status = "submitted") →
      cleanup_workspace s id false = (s, false) ∧
      cleanup_workspace s id true =
        (⟨s.entries.filter (fun e => e.1 ≠ w.path)⟩, true) ∧
      respGet (cleanup_workspace_tool s id false).1 "status" =
        some (RVal.s "not_removed") ∧
      (cleanup_workspace_tool s id false).2 = s) ∧
    (∀ id force, get_workspace s id = none →
      cleanup_workspace s id force = (s, false) ∧
      respGet (cleanup_workspace_tool s id force).1 "status" =
        some (RVal.s "not_found")) := by
  constructor
  · intro id w hget hst
    have hmem := (get_workspace_mem_wf hwf hget).1
    have hfalse : cleanup_workspace s id false = (s, false) := by
      unfold cleanup_workspace
      rw [hget]
      dsimp only
      rw [if_pos ⟨by simp, hst⟩]
    have htrue : cleanup_workspace s id true =
        (⟨s.entries.filter (fun e => e.1 ≠ w.path)⟩, true) := by
      unfold cleanup_workspace
      rw [hget]
      dsimp only
      rw [if_neg (by simp)]
      rw [if_pos (entries_any_path hwf hmem)]
    refine ⟨hfalse, htrue, ?_, ?_⟩
    · unfold cleanup_workspace_tool
      rw [hget, hfalse]
      simp [respGet, dictGet]
    · unfold cleanup_workspace_tool
      rw [hget, hfalse]
      simp
  · intro id force hget
    have hnone : cleanup_workspace s id force = (s, false) := by
      unfold cleanup_workspace
      rw [hget]
    refine ⟨hnone, ?_⟩
    unfold cleanup_workspace_tool
    rw [hget]
    simp [respGet, dictGet]

/-- A submitted workspace record. -/
def wsub : WorkspaceInfo :=
  { workspace_id := "sub001"
    path := "/u/borealis_jobs/sub_20261012_030405"
    job_name := "sub"
    created_at := "2026-10-12T03:04:05"
    system := "polaris"
    status := "submitted"
    job_id := some "1000.mock-pbs-server"
    script_path := none
    metadata := [] }

/-- A store holding just the submitted workspace `wsub`. -/
def store1 : Store := ⟨[(wsub.path, some wsub)]⟩

/-- Witness: `cleanup_guard` on a store with one submitted workspace and on
an unknown id. -/
theorem cleanup_guard_witness :
    (cleanup_workspace store1 "sub001" false = (store1, false) ∧
      cleanup_workspace store1 "sub001" true =
        (⟨store1.entries.filter (fun e => e.1 ≠ wsub.path)⟩, true) ∧
      respGet (cleanup_workspace_tool store1 "sub001" false).1 "status" =
        some (RVal.s "not_removed") ∧
      (cleanup_workspace_tool store1 "sub001" false).2 = store1) ∧
    (cleanup_workspace store1 "nope" true = (store1, false) ∧
      respGet (cleanup_workspace_tool store1 "nope" true).1 "status" =
        some (RVal.s "not_found")) :=
  ⟨(cleanup_guard store1 (by refine ⟨?_, ?_, ?_⟩ <;> decide)).1 "sub001" wsub
      rfl (Or.inr rfl),
    (cleanup_guard store1 (by refine ⟨?_, ?_, ?_⟩ <;> decide)).2 "nope" true
      rfl⟩

/-- The record fields produced by an update call on a found workspace. -/
theorem update_result_fields (s : Store) (id : String)
    (st jb sp : Option String) (md : Option (List (String × JVal)))
    (w : WorkspaceInfo) (hget : get_workspace s id = some w) :
    ∃ w', (update_workspace s id st jb sp md).2 = some w' ∧
      w'.status = (if optTruthy st then st.getD "" else w.status) ∧
      w'.job_id = (if optTruthy jb then some (jb.getD "") else w.job_id) ∧
      w'.script_path =
        (if optTruthy sp then some (sp.getD "") else w.script_path) := by
  unfold update_workspace
  rw [hget]
  dsimp only
  refine ⟨_, rfl, ?_, ?_, ?_⟩ <;>
    · by_cases h1 : optTruthy st = true <;>
      by_cases h2 : optTruthy jb = true <;>
      by_cases h3 : optTruthy sp = true <;>
      cases md <;>
      simp [h1, h2, h3] <;>
      split <;>
      rfl

/-- C10 (implicit): the empty string and the empty patch are treated exactly
like absent update arguments — each such argument leaves the corresponding
stored field unchanged — and consequently an update can never set the status
to the empty string (unless it already was empty) and can never clear a
recorded job id or script path back to null. -/
theorem update_empty_treated_as_absent :
    (∀ s id jb sp md, update_workspace s id (some "") jb sp md =
        update_workspace s id none jb sp md) ∧
    (∀ s id st sp md, update_workspace s id st (some "") sp md =
        update_workspace s id st none sp md) ∧
    (∀ s id st jb md, update_workspace s id st jb (some "") md =
        update_workspace s id st jb none md) ∧
    (∀ s id st jb sp, update_workspace s id st jb sp (some []) =
        update_workspace s id st jb sp none) ∧
    (∀ s id st jb sp md w w', get_workspace s id = some w →
      (update_workspace s id st jb sp md).2 = some w' →
      (w'.status = "" → w.status = "") ∧
      (w'.job_id = none → w.job_id = none) ∧
      (w'.script_path = none → w.script_path = none)) := by
  refine ⟨?_, ?_, ?_, ?_, ?_⟩
  · intro s id jb sp md
    unfold update_workspace
    cases get_workspace s id <;> simp [optTruthy]
  · intro s id st sp md
    unfold update_workspace
    cases get_workspace s id <;> simp [optTruthy]
  · intro s id st jb md
    unfold update_workspace
    cases get_workspace s id <;> simp [optTruthy]
  · intro s id st jb sp
    unfold update_workspace
    cases get_workspace s id <;> simp [optTruthy]
  · intro s id st jb sp md w w' hget hupd
    obtain ⟨w'', hw'', hsts, hjb, hsp⟩ :=
      update_result_fields s id st jb sp md w hget
    rw [hupd] at hw''
    cases hw''
    refine ⟨?_, ?_, ?_⟩
    · intro h0
      rw [hsts] at h0
      by_cases ht : optTruthy st = true
      · rw [if_pos ht] at h0
        cases st with
        | none => cases ht
        | some v =>
          exfalso
          simp [optTruthy] at ht
          exact ht (by simpa using h0)
      · rwa [if_neg ht] at h0
    · intro h0
      rw [hjb] at h0
      by_cases ht : optTruthy jb = true
      · rw [if_pos ht] at h0
        cases h0
      · rwa [if_neg ht] at h0
    · intro h0
      rw [hsp] at h0
      by_cases ht : optTruthy sp = true
      · rw [if_pos ht] at h0
        cases h0
      · rwa [if_neg ht] at h0

/-- Witness: `update_empty_treated_as_absent` on `store0`. -/
theorem update_empty_treated_as_absent_witness :
    (update_workspace store0 "abc123def456" (some "") none none none =
      update_workspace store0 "abc123def456" none none none none) ∧
    (({ w0 with status := "x" } : WorkspaceInfo).job_id = none →
      w0.job_id = none) :=
  ⟨update_empty_treated_as_absent.1 store0 "abc123def456" none none none,
    (update_empty_treated_as_absent.2.2.2.2 store0 "abc123def456" (some "x")
      none none none w0 { w0 with status := "x" } rfl rfl).2.1⟩

/-! ### Age-based cleanup lemmas -/

/-- The loop body of `cleanup_old_workspaces`, written through the selection
test. -/
theorem oldStep_eq (parseTs : String → Option Int) (cutoff : Int)
    (acc : Store × Nat) (i : WorkspaceInfo) :
    oldStep parseTs cutoff acc i =
      if oldSelect parseTs cutoff i = true then
        ((cleanup_workspace acc.1 i.workspace_id true).1,
          if (cleanup_workspace acc.1 i.workspace_id true).2 then acc.2 + 1
          else acc.2)
      else acc := by
  unfold oldStep oldSelect
  cases hp : parseTs i.created_at with
  | none => simp
  | some created =>
    dsimp only
    have hiff : (decide (created < cutoff) &&
        (i.status == "completed" || i.status == "failed")) = true ↔
        (created < cutoff ∧ (i.status = "completed" ∨ i.status = "failed")) := by
      simp
    by_cases hc : created < cutoff ∧ (i.status = "completed" ∨ i.status = "failed")
    · rw [if_pos hc, if_pos (hiff.mpr hc)]
    · rw [if_neg hc, if_neg (fun hb => hc (hiff.mp hb))]

/-- Force-cleanup of a member record removes exactly its directory entry. -/
theorem cleanup_force_removes {s : Store} (hwf : s.wf) {p : String}
    {w : WorkspaceInfo} (hp : (p, some w) ∈ s.entries) :
    cleanup_workspace s w.workspace_id true =
      (⟨s.entries.filter (fun e => e.1 ≠ w.path)⟩, true) := by
  unfold cleanup_workspace
  rw [get_workspace_of_mem hwf hp]
  dsimp only
  rw [if_neg (by simp)]
  rw [if_pos (entries_any_path hwf hp)]

/-- The cleanup loop, fully characterized: iterating over any duplicate-free
family of member records removes exactly the selected ones and counts them. -/
theorem oldStep_foldl (parseTs : String → Option Int) (cutoff : Int) :
    ∀ (L : List WorkspaceInfo) (s : Store) (k : Nat),
      s.wf →
      (∀ i ∈ L, (i.path, some i) ∈ s.entries) →
      (L.map WorkspaceInfo.path).Nodup →
      L.foldl (oldStep parseTs cutoff) (s, k) =
        (⟨s.entries.filter (fun e =>
            !(L.any (fun i => oldSelect parseTs cutoff i && e.1 == i.path)))⟩,
          k + (L.filter (oldSelect parseTs cutoff)).length) := by
  intro L
  induction L with
  | nil =>
    intro s k _ _ _
    simp
  | cons i L ih =>
    intro s k hwf hmem hnd
    have hin : (i.path, some i) ∈ s.entries := hmem i (List.mem_cons_self i L)
    have hndL : (L.map WorkspaceInfo.path).Nodup :=
      (List.nodup_cons.mp (by simpa using hnd)).2
    have hnotin : i.path ∉ L.map WorkspaceInfo.path :=
      (List.nodup_cons.mp (by simpa using hnd)).1
    rw [List.foldl_cons, oldStep_eq]
    by_cases hsel : oldSelect parseTs cutoff i = true
    · rw [if_pos hsel]
      have hcr := cleanup_force_removes hwf hin
      rw [hcr]
      dsimp only
      rw [if_pos rfl]
      have hmem2 : ∀ j ∈ L,
          (j.path, some j) ∈
            (s.entries.filter (fun e => e.1 ≠ i.path)) := by
        intro j hj
        rw [List.mem_filter]
        refine ⟨hmem j (List.mem_cons_of_mem i hj), ?_⟩
        simp only [decide_eq_true_eq]
        intro hjp
        exact hnotin (hjp ▸ List.mem_map_of_mem WorkspaceInfo.path hj)
      rw [ih ⟨s.entries.filter (fun e => e.1 ≠ i.path)⟩ (k + 1)
        (wf_filter hwf _) hmem2 hndL]
      rw [List.filter_filter]
      refine congrArg₂ Prod.mk (congrArg Store.mk (List.filter_congr ?_)) ?_
      · intro e he
        rw [List.any_cons]
        by_cases hep : e.1 = i.path
        · simp [hep, hsel]
        · simp [hep, hsel]
      · rw [List.filter_cons_of_pos hsel]
        simp only [List.length_cons]
        omega
    · rw [if_neg hsel]
      rw [ih s k hwf (fun j hj => hmem j (List.mem_cons_of_mem i hj)) hndL]
      refine congrArg₂ Prod.mk (congrArg Store.mk (List.filter_congr ?_)) ?_
      · intro e he
        rw [List.any_cons]
        simp [hsel]
      · rw [List.filter_cons_of_neg (by simp [hsel])]

/-- The scan of `list_workspaces(limit=1000)` is a permutation of all
loadable records whenever the store holds at most 1000 entries. -/
theorem list_workspaces_perm (s : Store) (hlen : s.entries.length ≤ 1000) :
    (list_workspaces s none 1000).Perm (s.entries.filterMap Prod.snd) := by
  unfold list_workspaces
  dsimp only
  have hperm := List.mergeSort_perm (s.entries.filterMap Prod.snd)
    (fun a b => decide (b.created_at ≤ a.created_at))
  rw [List.take_of_length_le]
  · exact hperm
  · rw [hperm.length_eq]
    exact le_trans (List.length_filterMap_le _ _) hlen

/-- Loadable records of a well-formed entry list have distinct paths. -/
theorem paths_nodup_aux :
    ∀ (l : List (String × Option WorkspaceInfo)),
      (∀ e ∈ l, Option.all (fun i => i.path == e.1) e.2 = true) →
      (l.map Prod.fst).Nodup →
      ((l.filterMap Prod.snd).map WorkspaceInfo.path).Nodup := by
  intro l
  induction l with
  | nil =>
    intro _ _
    simp
  | cons e rest ih =>
    intro hok hnd
    rcases e with ⟨p, meta⟩
    have hndr : (rest.map Prod.fst).Nodup :=
      (List.nodup_cons.mp (by simpa using hnd)).2
    have hpr : p ∉ rest.map Prod.fst :=
      (List.nodup_cons.mp (by simpa using hnd)).1
    cases meta with
    | none =>
      rw [List.filterMap_cons]
      exact ih (fun e' he' => hok e' (List.mem_cons_of_mem _ he')) hndr
    | some i =>
      rw [List.filterMap_cons]
      dsimp only
      rw [List.map_cons, List.nodup_cons]
      have hip : i.path = p := by
        have h1 := hok (p, some i) (List.mem_cons_self _ rest)
        simpa [Option.all] using h1
      refine ⟨?_, ih (fun e' he' => hok e' (List.mem_cons_of_mem _ he')) hndr⟩
      intro hmem
      rw [List.mem_map] at hmem
      obtain ⟨j, hj, hjp⟩ := hmem
      rw [List.mem_filterMap] at hj
      obtain ⟨e', he', hje⟩ := hj
      have hjpath : j.path = e'.1 := by
        have h1 := hok e' (List.mem_cons_of_mem _ he')
        rw [hje] at h1
        simpa [Option.all] using h1
      refine hpr ?_
      rw [List.mem_map]
      exact ⟨e', he', by rw [← hjpath, hjp, hip]⟩

/-- C4 (amended): for every positive day threshold and every well-formed
store with at most 1000 entries, `cleanup_old_workspaces` examines every
loadable workspace record, force-deletes exactly those whose creation
timestamp parses to an instant before `now - days*86400` and whose status
is `completed` or `failed`, skips records with unparseable timestamps (and
entries with unreadable metadata) without failing, and returns the number
removed.  (For a non-positive threshold it removes nothing and returns 0 —
see the counterexample — and the scan caps at the 1000 newest records.) -/
theorem cleanup_old_correct (parseTs : String → Option Int) (now : Int)
    (s : Store) (days : Int) (hwf : s.wf) (hlen : s.entries.length ≤ 1000)
    (hdays : 0 < days) :
    cleanup_old_workspaces parseTs now s days =
      (⟨s.entries.filter (fun e =>
          match e.2 with
          | some i => !oldSelect parseTs (now - days * 86400) i
          | none => true)⟩,
        ((s.entries.filterMap Prod.snd).filter
          (oldSelect parseTs (now - days * 86400))).length) := by
  unfold cleanup_old_workspaces
  rw [if_neg (by omega)]
  have hperm : (list_workspaces s none 1000).Perm
      (s.entries.filterMap Prod.snd) := list_workspaces_perm s hlen
  have hmem : ∀ i ∈ list_workspaces s none 1000,
      (i.path, some i) ∈ s.entries := by
    intro i hi
    have h1 : i ∈ s.entries.filterMap Prod.snd := hperm.mem_iff.mp hi
    rw [List.mem_filterMap] at h1
    obtain ⟨e, he, hei⟩ := h1
    have hip : i.path = e.1 := hwf.path_eq he hei
    have : (i.path, some i) = e := by
      rcases e with ⟨p, meta⟩
      simp only at hip hei
      rw [hip, hei]
    rwa [this]
  have hnd : ((list_workspaces s none 1000).map WorkspaceInfo.path).Nodup :=
    ((hperm.map WorkspaceInfo.path).nodup_iff).mpr
      (paths_nodup_aux s.entries hwf.1 hwf.2.1)
  rw [oldStep_foldl parseTs (now - days * 86400) (list_workspaces s none 1000)
    s 0 hwf hmem hnd]
  refine congrArg₂ Prod.mk (congrArg Store.mk (List.filter_congr ?_)) ?_
  · intro e he
    cases hmeta : e.2 with
    | none =>
      have hany : (list_workspaces s none 1000).any
          (fun i => oldSelect parseTs (now - days * 86400) i &&
            e.1 == i.path) = false := by
        rw [List.any_eq_false]
        intro i hi
        rw [Bool.and_eq_true, beq_iff_eq]
        rintro ⟨hisel, hpath⟩
        obtain ⟨e', he', hei⟩ := List.mem_filterMap.mp (hperm.mem_iff.mp hi)
        have hip : i.path = e'.1 := hwf.path_eq he' hei
        have hee' : e = e' :=
          List.inj_on_of_nodup_map hwf.2.1 he he' (by rw [hpath, hip])
        rw [← hee'] at hei
        rw [hmeta] at hei
        cases hei
      simp [hany, hmeta]
    | some w =>
      have hwpath : w.path = e.1 := hwf.path_eq he hmeta
      have hwmem : w ∈ list_workspaces s none 1000 := by
        rw [hperm.mem_iff, List.mem_filterMap]
        exact ⟨e, he, hmeta⟩
      by_cases hsel : oldSelect parseTs (now - days * 86400) w = true
      · have hany : (list_workspaces s none 1000).any
            (fun i => oldSelect parseTs (now - days * 86400) i &&
              e.1 == i.path) = true := by
          rw [List.any_eq_true]
          refine ⟨w, hwmem, ?_⟩
          rw [Bool.and_eq_true, beq_iff_eq]
          exact ⟨hsel, hwpath.symm⟩
        simp [hany, hmeta, hsel]
      · have hany : (list_workspaces s none 1000).any
            (fun i => oldSelect parseTs (now - days * 86400) i &&
              e.1 == i.path) = false := by
          rw [List.any_eq_false]
          intro i hi
          rw [Bool.and_eq_true, beq_iff_eq]
          rintro ⟨hisel, hpath⟩
          obtain ⟨e', he', hei⟩ := List.mem_filterMap.mp (hperm.mem_iff.mp hi)
          have hip : i.path = e'.1 := hwf.path_eq he' hei
          have hee' : e = e' :=
            List.inj_on_of_nodup_map hwf.2.1 he he' (by rw [hpath, hip])
          rw [← hee'] at hei
          rw [hmeta] at hei
          cases hei
          exact hsel hisel
        have hself : oldSelect parseTs (now - days * 86400) w = false := by
          simpa using hsel
        simp [hany, hmeta, hself]
  · rw [Nat.zero_add]
    exact (hperm.filter _).length_eq

/-- A concrete timestamp parser: `ts0`'s ISO string parses to 100. -/
def parseTs0 : String → Option Int := fun str =>
  if str = "2026-10-12T03:04:05" then some 100 else none

/-- An old completed workspace record. -/
def wold : WorkspaceInfo :=
  { workspace_id := "old001"
    path := "/u/borealis_jobs/old_20261012_030405"
    job_name := "old"
    created_at := "2026-10-12T03:04:05"
    system := "polaris"
    status := "completed"
    job_id := none
    script_path := none
    metadata := [] }

/-- A store holding the old completed workspace and the active `w0`. -/
def store2 : Store := ⟨[(wold.path, some wold), (w0.path, some w0)]⟩

/-- Witness: `cleanup_old_correct` on a two-workspace store where only the
old completed workspace qualifies. -/
theorem cleanup_old_correct_witness :
    cleanup_old_workspaces parseTs0 200000 store2 1 =
      (⟨store2.entries.filter (fun e =>
          match e.2 with
          | some i => !oldSelect parseTs0 (200000 - 1 * 86400) i
          | none => true)⟩,
        ((store2.entries.filterMap Prod.snd).filter
          (oldSelect parseTs0 (200000 - 1 * 86400))).length) :=
  cleanup_old_correct parseTs0 200000 store2 1
    (by refine ⟨?_, ?_, ?_⟩ <;> decide) (by decide) (by decide)

/-- C4 counterexample: with an age threshold of zero days, a completed
workspace created before the cutoff (`100 < 200000 - 0*86400`) should be
removed and counted according to the claim, but `cleanup_old_workspaces`
returns the store unchanged with count 0 because of the `days <= 0` early
return. -/
theorem cleanup_old_zero_days_counterexample :
    parseTs0 wold.created_at = some 100 ∧
    (100 : Int) < 200000 - 0 * 86400 ∧
    wold.status = "completed" ∧
    cleanup_old_workspaces parseTs0 200000 store2 0 = (store2, 0) :=
  ⟨rfl, by decide, rfl, rfl⟩

end Borealis
